import Mathlib

/-!
Verification development for the envoy repository fragment: the upstream host
model declared in source/common/upstream/upstream_impl.h, and the asynchronous
append-only file writer (Filesystem::FileImpl) described by the design
specification and exercised by test/common/filesystem/filesystem_impl_test.cc.
-/

namespace Upstream

/-- Shallow embedding of class Locality (upstream_impl.h, lines 42-52): a
wrapper around a triple of strings (region, zone, sub_zone). -/
structure Locality where
  region : String
  zone : String
  sub_zone : String
deriving DecidableEq, Repr

/-- Embedding of Locality::empty (upstream_impl.h, lines 49-51):
std::get<0>(*this).empty() && std::get<1>(*this).empty() &&
std::get<2>(*this).empty(). -/
def Locality.empty (l : Locality) : Bool :=
  l.region.isEmpty && l.zone.isEmpty && l.sub_zone.isEmpty

/-- Modelled from the spec: the HealthFlag enumeration is declared in
envoy/upstream/upstream.h, which is not part of the fragment; only its use
sites in upstream_impl.h are.  It is modelled as an enumeration of distinct
single-bit values, FAILED_ACTIVE_HC = 0x1 and FAILED_OUTLIER_CHECK = 0x2,
following the upstream declaration style that healthFlagSet or-s into and
healthFlagClear masks out of a 64-bit word. -/
inductive HealthFlag where
  | FAILED_ACTIVE_HC
  | FAILED_OUTLIER_CHECK
deriving DecidableEq, Repr, Fintype

/-- Modelled from the spec: enumToInt (common/common/enum_to_int.h, absent
from the fragment) converts an enumerator to its underlying integer value. -/
def enumToInt : HealthFlag → Nat
  | .FAILED_ACTIVE_HC => 1
  | .FAILED_OUTLIER_CHECK => 2

/-- The all-ones 64-bit word, the value of ~0 on the uint64_t field
health_flags_. -/
def uint64AllOnes : Nat := 18446744073709551615

/-- Embedding of HostImpl::healthFlagSet (upstream_impl.h, line 141):
health_flags_ |= enumToInt(flag).  The state is the uint64_t field
health_flags_, represented as a natural number below 2^64. -/
def healthFlagSet (x : Nat) (f : HealthFlag) : Nat :=
  x ||| enumToInt f

/-- Embedding of HostImpl::healthFlagClear (upstream_impl.h, line 139):
health_flags_ &= ~enumToInt(flag), with ~ taken on uint64_t. -/
def healthFlagClear (x : Nat) (f : HealthFlag) : Nat :=
  x &&& (uint64AllOnes ^^^ enumToInt f)

/-- Embedding of HostImpl::healthFlagGet (upstream_impl.h, line 140):
health_flags_ & enumToInt(flag), converted to bool (nonzero test). -/
def healthFlagGet (x : Nat) (f : HealthFlag) : Bool :=
  (x &&& enumToInt f) != 0

/-- Embedding of HostImpl::healthy (upstream_impl.h, line 148):
return !health_flags_. -/
def healthy (x : Nat) : Bool :=
  x == 0

/-- The values the health_flags_ field of a HostImpl can take: it is
zero-initialized (upstream_impl.h, line 160) and mutated only through
healthFlagSet and healthFlagClear. -/
inductive HealthReachable : Nat → Prop where
  | init : HealthReachable 0
  | set (f : HealthFlag) (x : Nat) : HealthReachable x → HealthReachable (healthFlagSet x f)
  | clear (f : HealthFlag) (x : Nat) : HealthReachable x → HealthReachable (healthFlagClear x f)

lemma healthReachable_lt_four {x : Nat} (h : HealthReachable x) : x < 4 := by
  induction h with
  | init => decide
  | set f x _ ih => interval_cases x <;> cases f <;> decide
  | clear f x _ ih => interval_cases x <;> cases f <;> decide

/-- Shallow embedding of the host-set state touched by HostSetImpl
(upstream_impl.h, lines 173-219): the four stored host lists and the
registered member-update callbacks, the latter modelled from the spec as a
list of callback identifiers in registration order, because
common/common/callback_impl.h is outside the fragment.  Hosts are an
arbitrary type parameter. -/
structure HostSetState (α : Type) where
  hosts : List α
  healthy_hosts : List α
  hosts_per_locality : List (List α)
  healthy_hosts_per_locality : List (List α)
  callbacks : List Nat
deriving DecidableEq, Repr

/-- Modelled from the spec: HostSetImpl::runUpdateCallbacks (upstream_impl.h,
lines 206-209) delegates to CallbackManager::runCallbacks, whose source is
outside the fragment; it invokes each registered callback once, in
registration order, with the given arguments.  An invocation is recorded as
a triple (callback id, hosts_added, hosts_removed). -/
def runUpdateCallbacks {α : Type} (s : HostSetState α) (hosts_added hosts_removed : List α) :
    List (Nat × List α × List α) :=
  s.callbacks.map fun cb => (cb, hosts_added, hosts_removed)

/-- Embedding of HostSetImpl::updateHosts (upstream_impl.h, lines 180-190):
overwrite the four stored lists with the arguments, then run the
member-update callbacks with hosts_added and hosts_removed. -/
def updateHosts {α : Type} (s : HostSetState α) (hosts healthy_hosts : List α)
    (hosts_per_locality healthy_hosts_per_locality : List (List α))
    (hosts_added hosts_removed : List α) :
    HostSetState α × List (Nat × List α × List α) :=
  ({ s with
      hosts := hosts
      healthy_hosts := healthy_hosts
      hosts_per_locality := hosts_per_locality
      healthy_hosts_per_locality := healthy_hosts_per_locality },
   runUpdateCallbacks s hosts_added hosts_removed)

end Upstream

namespace Upstream

/-- C8: Locality::empty returns true exactly when all three components,
region, zone and sub_zone, are the empty string; hence a Locality with any
single non-empty component is not empty. -/
theorem claim_C8_locality_empty_iff (l : Locality) :
    Locality.empty l = true ↔ (l.region = "" ∧ l.zone = "" ∧ l.sub_zone = "") := by
  simp [Locality.empty, String.isEmpty_iff, and_assoc]

/-- C9: on every reachable health_flags_ value of a HostImpl, healthFlagGet
reads true after healthFlagSet of the same flag and false after
healthFlagClear of the same flag; healthFlagSet and healthFlagClear of a
flag leave healthFlagGet of every other flag unchanged; and healthy is true
exactly when no flag reads as set. -/
theorem claim_C9_health_flag_algebra (x : Nat) (f g : HealthFlag)
    (hx : HealthReachable x) (hfg : f ≠ g) :
    healthFlagGet (healthFlagSet x f) f = true ∧
    healthFlagGet (healthFlagClear x f) f = false ∧
    healthFlagGet (healthFlagSet x f) g = healthFlagGet x g ∧
    healthFlagGet (healthFlagClear x f) g = healthFlagGet x g ∧
    (healthy x = true ↔ ∀ q : HealthFlag, healthFlagGet x q = false) := by
  have h4 := healthReachable_lt_four hx
  interval_cases x <;> cases f <;> cases g <;>
    first
    | exact absurd rfl hfg
    | decide

/-- Witness for C9 at the zero-initialized host with the two distinct
flags. -/
theorem claim_C9_health_flag_algebra_witness :
    HealthReachable 0 ∧
    HealthFlag.FAILED_ACTIVE_HC ≠ HealthFlag.FAILED_OUTLIER_CHECK ∧
    (healthFlagGet (healthFlagSet 0 .FAILED_ACTIVE_HC) .FAILED_ACTIVE_HC = true ∧
     healthFlagGet (healthFlagClear 0 .FAILED_ACTIVE_HC) .FAILED_ACTIVE_HC = false ∧
     healthFlagGet (healthFlagSet 0 .FAILED_ACTIVE_HC) .FAILED_OUTLIER_CHECK =
       healthFlagGet 0 .FAILED_OUTLIER_CHECK ∧
     healthFlagGet (healthFlagClear 0 .FAILED_ACTIVE_HC) .FAILED_OUTLIER_CHECK =
       healthFlagGet 0 .FAILED_OUTLIER_CHECK ∧
     (healthy 0 = true ↔ ∀ q : HealthFlag, healthFlagGet 0 q = false)) :=
  ⟨HealthReachable.init, by decide,
   claim_C9_health_flag_algebra 0 _ _ HealthReachable.init (by decide)⟩

/-- C10: updateHosts replaces exactly the four stored host lists with the
given values, leaves the registered callbacks unchanged, and produces one
invocation per registered callback, each carrying hosts_added and
hosts_removed, in registration order; every callback is invoked exactly
once. -/
theorem claim_C10_updateHosts {α : Type} [DecidableEq α] (s : HostSetState α)
    (hosts healthy_hosts : List α) (hpl hhpl : List (List α))
    (added removed : List α) :
    (updateHosts s hosts healthy_hosts hpl hhpl added removed).1.hosts = hosts ∧
    (updateHosts s hosts healthy_hosts hpl hhpl added removed).1.healthy_hosts = healthy_hosts ∧
    (updateHosts s hosts healthy_hosts hpl hhpl added removed).1.hosts_per_locality = hpl ∧
    (updateHosts s hosts healthy_hosts hpl hhpl added removed).1.healthy_hosts_per_locality
      = hhpl ∧
    (updateHosts s hosts healthy_hosts hpl hhpl added removed).1.callbacks = s.callbacks ∧
    (updateHosts s hosts healthy_hosts hpl hhpl added removed).2
      = s.callbacks.map (fun cb => (cb, added, removed)) ∧
    (∀ cb : Nat,
      (((updateHosts s hosts healthy_hosts hpl hhpl added removed).2).filter
          (fun r => r.1 == cb)).length
        = (s.callbacks.filter (fun c => c == cb)).length) := by
  refine ⟨rfl, rfl, rfl, rfl, rfl, rfl, fun cb => ?_⟩
  simp only [updateHosts, runUpdateCallbacks, List.filter_map, List.length_map]
  rfl

end Upstream

namespace AsyncFile

/-- Byte sequences, the payloads of producer writes and write syscalls. -/
abbrev Bytes := List Nat

/-- Observable calls on the injected OS syscall and timer interfaces
(spec section 6): open returning a descriptor or a negative value, write on
a descriptor with a payload and a success bit (the mocked syscall result),
close of a descriptor, and the re-arming of the one-shot timer. -/
inductive Sys where
  | openCall (ret : Int)
  | writeCall (fd : Int) (data : Bytes) (ok : Bool)
  | closeCall (fd : Int)
  | enableTimer (ms : Nat)
deriving DecidableEq, Repr

/-- Modelled from the spec: the state of an AsyncFile (Filesystem::FileImpl,
whose source file is not part of the fragment), following the data model of
spec section 3: the two buffers, the nullable descriptor, the ReopenPending,
FlushRequested and ShuttingDown flags, the immutable flush interval, and the
error or progress counters of section 6. -/
structure FileState where
  interval : Nat
  frontBuffer : Bytes
  backBuffer : Bytes
  descriptor : Option Int
  reopenPending : Bool
  flushRequested : Bool
  shuttingDown : Bool
  writeCompleted : Nat
  writeFailed : Nat
  reopenFailed : Nat
deriving DecidableEq, Repr

/-- SizeThreshold of spec section 3: 64 KiB. -/
def sizeThreshold : Nat := 64 * 1024

/-- The state of an AsyncFile right after a successful construction with
flush interval intv and freshly opened descriptor fd: empty buffers, no
pending flags, zeroed counters. -/
def initState (intv : Nat) (fd : Int) : FileState :=
  { interval := intv
    frontBuffer := []
    backBuffer := []
    descriptor := some fd
    reopenPending := false
    flushRequested := false
    shuttingDown := false
    writeCompleted := 0
    writeFailed := 0
    reopenFailed := 0 }

/-- Events of an execution.  Producer events (write, flushRequest, reopen)
and the timer callback run on producer or dispatcher threads; a cycle event
is one iteration of the flusher loop, carrying the environment inputs it may
consume: the descriptor the OS would return from open and the success of the
write syscall; destroy is the teardown. -/
inductive Ev where
  | write (b : Bytes)
  | flushRequest
  | reopen
  | timerFire
  | cycle (openRet : Int) (writeOk : Bool)
  | destroy
deriving DecidableEq, Repr

/-- Modelled from the spec: the producer write of section 4.1 and trigger
rule 2 of section 4.3 (FileImpl::write, source absent from the fragment):
append the payload to the front buffer; a payload strictly larger than
SizeThreshold sets FlushRequested. -/
def doWrite (s : FileState) (b : Bytes) : FileState :=
  { s with
      frontBuffer := s.frontBuffer ++ b
      flushRequested := s.flushRequested || decide (sizeThreshold < b.length) }

/-- Modelled from the spec: step 1 of the flusher protocol of section 4.4
(source absent from the fragment): when ReopenPending is set, close the
current descriptor if any, attempt open, store the new descriptor or the
no-descriptor sentinel, count a failed open, and clear ReopenPending. -/
def reopenStep (s : FileState) (openRet : Int) : FileState × List Sys :=
  if s.reopenPending then
    ({ s with
        descriptor := if openRet < 0 then none else some openRet
        reopenPending := false
        reopenFailed := s.reopenFailed + if openRet < 0 then 1 else 0 },
     (match s.descriptor with
      | some fd => [Sys.closeCall fd]
      | none => []) ++ [Sys.openCall openRet])
  else (s, [])

/-- Modelled from the spec: steps 2 and 3 of the flusher protocol of section
4.4 (source absent from the fragment), with the swap of section 4.2 fused
into the drain: the back buffer is empty before the swap (invariant 3 of
section 3) and is fully drained or discarded within the cycle, so the swap
moves the front buffer out and one write syscall carries it; on a failed
syscall or with no descriptor the bytes are discarded and counted.
FlushRequested is cleared as the flusher picks up the work. -/
def drainStep (s : FileState) (writeOk : Bool) : FileState × List Sys :=
  if s.frontBuffer = [] then
    ({ s with backBuffer := [], flushRequested := false }, [])
  else
    match s.descriptor with
    | some fd =>
      if writeOk then
        ({ s with
            frontBuffer := []
            backBuffer := []
            flushRequested := false
            writeCompleted := s.writeCompleted + s.frontBuffer.length },
         [Sys.writeCall fd s.frontBuffer true])
      else
        ({ s with
            frontBuffer := []
            backBuffer := []
            flushRequested := false
            writeFailed := s.writeFailed + s.frontBuffer.length },
         [Sys.writeCall fd s.frontBuffer false])
    | none =>
      ({ s with
          frontBuffer := []
          backBuffer := []
          flushRequested := false
          writeFailed := s.writeFailed + s.frontBuffer.length }, [])

/-- Modelled from the spec: one iteration of the flusher loop of section 4.3
(source absent from the fragment): the flusher proceeds only when woken by
FlushRequested, ReopenPending or ShuttingDown; it then performs the reopen
step followed by swap and drain, and signals completion. -/
def doCycle (s : FileState) (openRet : Int) (writeOk : Bool) : FileState × List Sys :=
  if s.flushRequested || s.reopenPending || s.shuttingDown then
    ((drainStep (reopenStep s openRet).1 writeOk).1,
     (reopenStep s openRet).2 ++ (drainStep (reopenStep s openRet).1 writeOk).2)
  else (s, [])

/-- Modelled from the spec: destruction (section 3, Lifecycle; source absent
from the fragment): set ShuttingDown and close the descriptor. -/
def doDestroy (s : FileState) : FileState × List Sys :=
  match s.descriptor with
  | some fd => ({ s with descriptor := none, shuttingDown := true }, [Sys.closeCall fd])
  | none => ({ s with shuttingDown := true }, [])

/-- One event of the execution: the producer and timer events mutate flags
and the front buffer (sections 4.1 and 4.3); the timer callback re-arms the
timer for another interval at every fire; the cycle and destroy events are
the flusher and teardown transitions. -/
def step (s : FileState) : Ev → FileState × List Sys
  | .write b => (doWrite s b, [])
  | .flushRequest => ({ s with flushRequested := true }, [])
  | .reopen => ({ s with reopenPending := true }, [])
  | .timerFire => ({ s with flushRequested := true }, [Sys.enableTimer s.interval])
  | .cycle r ok => doCycle s r ok
  | .destroy => doDestroy s

/-- An execution: fold the events over the state, concatenating the observed
calls. -/
def run (s : FileState) : List Ev → FileState × List Sys
  | [] => (s, [])
  | e :: es => ((run (step s e).1 es).1, (step s e).2 ++ (run (step s e).1 es).2)

/-- The OS syscalls of a trace: everything but timer re-armings. -/
def osCalls : List Sys → List Sys :=
  List.filter fun o =>
    match o with
    | .enableTimer _ => false
    | _ => true

end AsyncFile

namespace AsyncFile

lemma run_cons (s : FileState) (e : Ev) (es : List Ev) :
    run s (e :: es) = ((run (step s e).1 es).1, (step s e).2 ++ (run (step s e).1 es).2) :=
  rfl

lemma reopenStep_interval (s : FileState) (r : Int) :
    (reopenStep s r).1.interval = s.interval := by
  cases hrp : s.reopenPending <;> simp [reopenStep, hrp]

lemma drainStep_interval (s : FileState) (ok : Bool) :
    (drainStep s ok).1.interval = s.interval := by
  rcases hd : s.descriptor <;> by_cases hf : s.frontBuffer = [] <;> cases ok <;>
    simp [drainStep, hd, hf]

lemma doCycle_interval (s : FileState) (r : Int) (ok : Bool) :
    (doCycle s r ok).1.interval = s.interval := by
  by_cases hw : (s.flushRequested || s.reopenPending || s.shuttingDown) = true
  · simp only [doCycle, hw, if_true]
    rw [drainStep_interval, reopenStep_interval]
  · simp only [doCycle]
    rw [if_neg hw]

lemma step_interval (s : FileState) (e : Ev) : (step s e).1.interval = s.interval := by
  cases e with
  | write b => simp [step, doWrite]
  | flushRequest => simp [step]
  | reopen => simp [step]
  | timerFire => simp [step]
  | cycle r ok => exact doCycle_interval s r ok
  | destroy => rcases hd : s.descriptor <;> simp [step, doDestroy, hd]

/-- Recognizer for timer re-arming observations. -/
def isArm : Sys → Bool
  | .enableTimer _ => true
  | _ => false

/-- Recognizer for timer callback events. -/
def isFire : Ev → Bool
  | .timerFire => true
  | _ => false

lemma reopenStep_arms (s : FileState) (r : Int) :
    (reopenStep s r).2.filter isArm = [] := by
  cases hrp : s.reopenPending <;> rcases hd : s.descriptor <;>
    simp [reopenStep, hrp, hd, isArm]

lemma drainStep_arms (s : FileState) (ok : Bool) :
    (drainStep s ok).2.filter isArm = [] := by
  rcases hd : s.descriptor <;> by_cases hf : s.frontBuffer = [] <;> cases ok <;>
    simp [drainStep, hd, hf, isArm]

lemma doCycle_arms (s : FileState) (r : Int) (ok : Bool) :
    (doCycle s r ok).2.filter isArm = [] := by
  by_cases hw : (s.flushRequested || s.reopenPending || s.shuttingDown) = true
  · simp only [doCycle, hw, if_true, List.filter_append, reopenStep_arms, drainStep_arms,
      List.append_nil]
  · simp [doCycle, hw]

lemma step_arms (s : FileState) (e : Ev) :
    (step s e).2.filter isArm = if isFire e then [Sys.enableTimer s.interval] else [] := by
  cases e with
  | write b => simp [step, isFire]
  | flushRequest => simp [step, isFire]
  | reopen => simp [step, isFire]
  | timerFire => simp [step, isFire, isArm]
  | cycle r ok => simp [step, isFire, doCycle_arms]
  | destroy => rcases hd : s.descriptor <;> simp [step, doDestroy, hd, isFire, isArm]

end AsyncFile

namespace AsyncFile

/-- Modelled from the spec: construction of a FileImpl (the constructor in
common/filesystem/filesystem_impl.cc is absent from the fragment).  Spec
section 7 item 1 makes the initial open failure a construction error, and
the BadFile and flushToLogFilePeriodically tests drive the open through the
injected OS interface at construction; the result of that open is the
environment input.  A negative result is reported to the caller as a
construction error; otherwise the descriptor is stored and the file starts
in the initial state.  The open call is recorded in the observation list. -/
def construct (path : String) (intv : Nat) (osOpenRet : Int) :
    Except String FileState × List Sys :=
  (if osOpenRet < 0 then Except.error ("unable to open file: " ++ path)
   else Except.ok (initState intv osOpenRet),
   [Sys.openCall osOpenRet])

/-- C6 counterexample: at the concrete BadFile input, an empty path with an
interface whose open fails (the real OS interface fails to open an empty
path), construction does perform I/O, an open syscall on the empty path, and
the failure surfaces as a construction error.  This refutes both parts of
the claim as stated: construction is not free of I/O, and the synchronous
open is attempted even though the path is empty (the flushToLogFilePeriodic
test does the same with a mocked interface whose open returns 5). -/
theorem claim_C6_counterexample :
    (construct "" 10000 (-1)).2 ≠ [] ∧
    (construct "" 10000 (-1)).2 = [Sys.openCall (-1)] ∧
    Sys.openCall (-1) ∈ (construct "" 10000 (-1)).2 ∧
    (∃ msg, (construct "" 10000 (-1)).1 = Except.error msg) ∧
    (construct "" 10000 5).2 = [Sys.openCall 5] := by
  refine ⟨by simp [construct], rfl, by simp [construct], ⟨"unable to open file: " ++ "", ?_⟩, rfl⟩
  simp [construct]

/-- C6 amended: construction always performs exactly one synchronous open of
the configured path through the injected OS interface, whatever the path and
the interface; a negative open result surfaces to the caller as a
construction error, and a nonnegative result becomes the initial
descriptor. -/
theorem claim_C6_construct_always_opens (path : String) (intv : Nat) (r : Int) :
    (construct path intv r).2 = [Sys.openCall r] ∧
    (r < 0 → ∃ msg, (construct path intv r).1 = Except.error msg) ∧
    (0 ≤ r → (construct path intv r).1 = Except.ok (initState intv r)) := by
  refine ⟨rfl, fun h => ⟨"unable to open file: " ++ path, ?_⟩, fun h => ?_⟩
  · simp [construct, h]
  · simp [construct, not_lt.mpr h]

/-- Witness for C6 amended at the BadFile input and at a successful open. -/
theorem claim_C6_construct_always_opens_witness :
    ((-1 : Int) < 0 ∧ (∃ msg, (construct "" 10000 (-1)).1 = Except.error msg)) ∧
    ((0 : Int) ≤ 5 ∧ (construct "" 10000 5).1 = Except.ok (initState 10000 5)) :=
  ⟨⟨by decide, (claim_C6_construct_always_opens "" 10000 (-1)).2.1 (by decide)⟩,
   ⟨by decide, (claim_C6_construct_always_opens "" 10000 5).2.2 (by decide)⟩⟩

/-- C7: in every execution, the number of timer re-armings observed equals
the number of timer callback invocations, each callback re-arms with the
flush interval of the file, and no re-arming carries any other duration;
so every callback issues exactly one enable_timer(FlushInterval), whether or
not the cycle it triggers produces output. -/
theorem claim_C7_timer_rearmed (s : FileState) (evs : List Ev) :
    ((run s evs).2.filter isArm).length = (evs.filter isFire).length ∧
    (∀ ms, Sys.enableTimer ms ∈ (run s evs).2 → ms = s.interval) := by
  induction evs generalizing s with
  | nil => simp [run]
  | cons e es ih =>
    obtain ⟨ih1, ih2⟩ := ih (step s e).1
    rw [run_cons]
    constructor
    · simp only [List.filter_append, List.length_append, ih1, step_arms,
        step_interval]
      cases e <;> simp [isFire, Nat.add_comm]
    · intro ms hms
      rcases List.mem_append.mp hms with hms | hms
      · have harm : Sys.enableTimer ms ∈ (step s e).2.filter isArm :=
          List.mem_filter.mpr ⟨hms, rfl⟩
        rw [step_arms] at harm
        by_cases hf : isFire e = true
        · rw [if_pos hf] at harm
          simp only [List.mem_singleton, Sys.enableTimer.injEq] at harm
          exact harm
        · rw [if_neg hf] at harm
          exact absurd harm (List.not_mem_nil _)
      · have := ih2 ms hms
        rw [this, step_interval]
end AsyncFile

namespace AsyncFile

/-- C3: from a quiescent state (no flush requested, no reopen pending, not
shutting down) with a valid descriptor, a single producer write whose
payload is strictly larger than 64 KiB sets FlushRequested, and the very
next flusher cycle, with no timer fire in between, issues a write syscall
whose payload carries those bytes; a write of at most 64 KiB leaves
FlushRequested clear, and a flusher iteration that follows it with no timer
fire or explicit flush in between does nothing and issues no syscall. -/
theorem claim_C3_big_write_flushes_without_timer (s : FileState) (b : Bytes)
    (fd r : Int) (ok : Bool)
    (h1 : s.flushRequested = false) (h2 : s.reopenPending = false)
    (h3 : s.shuttingDown = false) (hfd : s.descriptor = some fd) :
    (sizeThreshold < b.length →
      (doWrite s b).flushRequested = true ∧
      (run s [.write b, .cycle r true]).2 =
        [Sys.writeCall fd (s.frontBuffer ++ b) true]) ∧
    (b.length ≤ sizeThreshold →
      (doWrite s b).flushRequested = false ∧
      (run s [.write b, .cycle r ok]).2 = []) := by
  constructor
  · intro hb
    have hbne : b ≠ [] := by
      intro hb0
      rw [hb0] at hb
      simp [sizeThreshold] at hb
    have hne : s.frontBuffer ++ b ≠ [] := by
      simp [hbne]
    have hfr : (doWrite s b).flushRequested = true := by
      simp [doWrite, h1, hb]
    refine ⟨hfr, ?_⟩
    simp [run, step, doWrite, doCycle, reopenStep, drainStep, h1, h2, h3, hfd, hb, hne]
  · intro hb
    have hfr : (doWrite s b).flushRequested = false := by
      simp [doWrite, h1, not_lt.mpr hb]
    refine ⟨hfr, ?_⟩
    simp [run, step, doWrite, doCycle, reopenStep, drainStep, h1, h2, h3, not_lt.mpr hb]

/-- Witness for C3 at the bigDataChunkShouldBeFlushedWithoutTimer payload of
64 KiB + 1 bytes written into the freshly constructed file with descriptor
5. -/
theorem claim_C3_big_write_flushes_without_timer_witness :
    (initState 40 5).flushRequested = false ∧
    (initState 40 5).reopenPending = false ∧
    (initState 40 5).shuttingDown = false ∧
    (initState 40 5).descriptor = some 5 ∧
    ((sizeThreshold < (List.replicate 65537 0).length →
       (doWrite (initState 40 5) (List.replicate 65537 0)).flushRequested = true ∧
       (run (initState 40 5) [.write (List.replicate 65537 0), .cycle 0 true]).2 =
         [Sys.writeCall 5 ((initState 40 5).frontBuffer ++ List.replicate 65537 0) true]) ∧
     ((List.replicate 65537 0).length ≤ sizeThreshold →
       (doWrite (initState 40 5) (List.replicate 65537 0)).flushRequested = false ∧
       (run (initState 40 5) [.write (List.replicate 65537 0), .cycle 0 true]).2 = [])) :=
  ⟨rfl, rfl, rfl, rfl,
   claim_C3_big_write_flushes_without_timer (initState 40 5) (List.replicate 65537 0)
     5 0 true rfl rfl rfl rfl⟩

/-- Modelled from the spec: flush() of section 4.1 and trigger rule 3 of
section 4.3 (source absent from the fragment): it sets FlushRequested,
signals the flusher, and blocks on the completion condition until the
flusher has finished a cycle that began no earlier than the call; it is
modelled synchronously as the flag set followed by that completed cycle,
after which the call returns.  The open input is irrelevant unless a reopen
is pending. -/
def flushOp (s : FileState) (writeOk : Bool) : FileState × List Sys :=
  doCycle { s with flushRequested := true } 0 writeOk

/-- C5: when flush() returns, the cycle it waited for has swapped out every
byte that was in the front buffer at call entry: the front buffer is empty,
and, with a valid descriptor, a single write syscall carrying exactly the
bytes present at entry has been issued; with no descriptor the bytes have
been discarded and counted as failed. -/
theorem claim_C5_flush_waits_for_cycle (s : FileState) (ok : Bool)
    (hro : s.reopenPending = false) (hne : s.frontBuffer ≠ []) :
    (flushOp s ok).1.frontBuffer = [] ∧
    (∀ fd, s.descriptor = some fd →
      (flushOp s ok).2 = [Sys.writeCall fd s.frontBuffer ok]) ∧
    (s.descriptor = none →
      (flushOp s ok).2 = [] ∧
      (flushOp s ok).1.writeFailed = s.writeFailed + s.frontBuffer.length) := by
  rcases hd : s.descriptor with _ | fd <;> cases ok <;>
    simp [flushOp, doCycle, reopenStep, drainStep, hro, hne, hd]

/-- Witness for C5 at the flushToLogFileOnDemand priming state: descriptor
5, the bytes of one producer write buffered, successful syscall. -/
theorem claim_C5_flush_waits_for_cycle_witness :
    (doWrite (initState 40 5) [1, 2, 3]).reopenPending = false ∧
    (doWrite (initState 40 5) [1, 2, 3]).frontBuffer ≠ [] ∧
    ((flushOp (doWrite (initState 40 5) [1, 2, 3]) true).1.frontBuffer = [] ∧
     (∀ fd, (doWrite (initState 40 5) [1, 2, 3]).descriptor = some fd →
       (flushOp (doWrite (initState 40 5) [1, 2, 3]) true).2 =
         [Sys.writeCall fd (doWrite (initState 40 5) [1, 2, 3]).frontBuffer true]) ∧
     ((doWrite (initState 40 5) [1, 2, 3]).descriptor = none →
       (flushOp (doWrite (initState 40 5) [1, 2, 3]) true).2 = [] ∧
       (flushOp (doWrite (initState 40 5) [1, 2, 3]) true).1.writeFailed =
         (doWrite (initState 40 5) [1, 2, 3]).writeFailed +
           (doWrite (initState 40 5) [1, 2, 3]).frontBuffer.length)) :=
  ⟨rfl, by decide,
   claim_C5_flush_waits_for_cycle (doWrite (initState 40 5) [1, 2, 3]) true rfl (by decide)⟩

end AsyncFile

namespace AsyncFile

/-- The reopenThrows scenario extended with recovery: a successful write and
periodic flush, a reopen whose open fails, a further write and timer tick
while in the no-descriptor state, then a reopen whose open succeeds and one
more write and timer tick. -/
def c4Evs (rFail rNew : Int) (b0 b1 b2 b3 : Bytes) : List Ev :=
  [.write b0, .timerFire, .cycle 0 true,
   .reopen, .write b1, .timerFire, .cycle rFail true,
   .write b2, .timerFire, .cycle 0 true,
   .reopen, .cycle rNew true,
   .write b3, .timerFire, .cycle 0 true]

/-- C4: when the open attempted during a reopen cycle returns a negative
value, the descriptor becomes the no-descriptor sentinel and the failed-open
counter is incremented; in that state producer writes are still accepted by
the total transition function (they append and return normally), the
buffered bytes are discarded by the flusher with the write-failure counter
incremented, no write syscall is issued, and a later reopen whose open
succeeds restores normal operation: the OS call sequence of the whole run
shows no write between the failed open and the recovering open, and the
final write lands on the recovered descriptor. -/
theorem claim_C4_reopen_failure_recovery (iv : Nat) (fd rFail rNew : Int)
    (b0 b1 b2 b3 : Bytes)
    (hf : rFail < 0) (hn : 0 ≤ rNew)
    (hb0 : b0 ≠ []) (hb1 : b1 ≠ []) (hb2 : b2 ≠ []) (hb3 : b3 ≠ []) :
    osCalls (run (initState iv fd) (c4Evs rFail rNew b0 b1 b2 b3)).2 =
      [Sys.writeCall fd b0 true, Sys.closeCall fd, Sys.openCall rFail,
       Sys.openCall rNew, Sys.writeCall rNew b3 true] ∧
    (run (initState iv fd) (c4Evs rFail rNew b0 b1 b2 b3)).1.descriptor = some rNew ∧
    (run (initState iv fd) (c4Evs rFail rNew b0 b1 b2 b3)).1.reopenFailed = 1 ∧
    (run (initState iv fd) (c4Evs rFail rNew b0 b1 b2 b3)).1.writeFailed =
      b1.length + b2.length ∧
    (∀ (t : FileState) (b : Bytes), (doWrite t b).frontBuffer = t.frontBuffer ++ b) := by
  refine ⟨?_, ?_, ?_, ?_, fun t b => by simp [doWrite]⟩ <;>
    simp [c4Evs, run, step, doWrite, doCycle, reopenStep, drainStep, initState, osCalls,
      hf, not_lt.mpr hn, hb0, hb1, hb2, hb3]

/-- Witness for C4 at the reopenThrows inputs: descriptor 5, failing open
returning -1, recovering open returning 10. -/
theorem claim_C4_reopen_failure_recovery_witness :
    ((-1 : Int) < 0 ∧ (0 : Int) ≤ 10 ∧
     ([1] : Bytes) ≠ [] ∧ ([2] : Bytes) ≠ [] ∧ ([3] : Bytes) ≠ [] ∧ ([4] : Bytes) ≠ []) ∧
    (osCalls (run (initState 40 5) (c4Evs (-1) 10 [1] [2] [3] [4])).2 =
      [Sys.writeCall 5 [1] true, Sys.closeCall 5, Sys.openCall (-1),
       Sys.openCall 10, Sys.writeCall 10 [4] true] ∧
     (run (initState 40 5) (c4Evs (-1) 10 [1] [2] [3] [4])).1.descriptor = some 10 ∧
     (run (initState 40 5) (c4Evs (-1) 10 [1] [2] [3] [4])).1.reopenFailed = 1 ∧
     (run (initState 40 5) (c4Evs (-1) 10 [1] [2] [3] [4])).1.writeFailed =
       ([2] : Bytes).length + ([3] : Bytes).length ∧
     (∀ (t : FileState) (b : Bytes), (doWrite t b).frontBuffer = t.frontBuffer ++ b)) :=
  ⟨⟨by decide, by decide, by decide, by decide, by decide, by decide⟩,
   claim_C4_reopen_failure_recovery 40 5 (-1) 10 [1] [2] [3] [4]
     (by decide) (by decide) (by decide) (by decide) (by decide) (by decide)⟩

end AsyncFile

namespace AsyncFile

/-- Events allowed in a loss-free run: producer writes, explicit flush
requests, timer fires, and flusher cycles whose write syscall succeeds; no
reopen and no teardown. -/
def lossFree : Ev → Bool
  | .write _ => true
  | .flushRequest => true
  | .timerFire => true
  | .cycle _ ok => ok
  | .reopen => false
  | .destroy => false

/-- The concatenation of the payloads of the producer write calls of an
event list, in call order. -/
def producerBytes : List Ev → Bytes
  | [] => []
  | .write b :: es => b ++ producerBytes es
  | .flushRequest :: es => producerBytes es
  | .reopen :: es => producerBytes es
  | .timerFire :: es => producerBytes es
  | .cycle _ _ :: es => producerBytes es
  | .destroy :: es => producerBytes es

/-- The concatenation of the payloads of the successful write syscalls of a
trace, in syscall order. -/
def flushedBytes : List Sys → Bytes
  | [] => []
  | .writeCall _ d true :: tr => d ++ flushedBytes tr
  | .writeCall _ _ false :: tr => flushedBytes tr
  | .openCall _ :: tr => flushedBytes tr
  | .closeCall _ :: tr => flushedBytes tr
  | .enableTimer _ :: tr => flushedBytes tr

lemma flushedBytes_append (a b : List Sys) :
    flushedBytes (a ++ b) = flushedBytes a ++ flushedBytes b := by
  induction a with
  | nil => rfl
  | cons o tr ih =>
    cases o with
    | writeCall fd d ok => cases ok <;> simp [flushedBytes, ih]
    | openCall r => simp [flushedBytes, ih]
    | closeCall fd => simp [flushedBytes, ih]
    | enableTimer ms => simp [flushedBytes, ih]

/-- One flusher cycle in a loss-free run: with a valid descriptor and no
pending reopen, the bytes it flushes followed by the bytes it leaves
buffered are exactly the bytes that were buffered, and the descriptor and
the reopen flag are untouched. -/
lemma doCycle_lossFree (s : FileState) (r : Int)
    (hdesc : s.descriptor.isSome = true)
    (hro : s.reopenPending = false) :
    flushedBytes (doCycle s r true).2 ++ (doCycle s r true).1.frontBuffer = s.frontBuffer ∧
    (doCycle s r true).1.descriptor = s.descriptor ∧
    (doCycle s r true).1.reopenPending = false := by
  obtain ⟨fd, hfd⟩ := Option.isSome_iff_exists.mp hdesc
  by_cases hw : (s.flushRequested || s.reopenPending || s.shuttingDown) = true
  · have hre : reopenStep s r = (s, []) := by
      simp [reopenStep, hro]
    simp only [doCycle]
    rw [if_pos hw, hre]
    by_cases hfb : s.frontBuffer = []
    · simp [drainStep, hfb, flushedBytes, hro]
    · simp [drainStep, hfb, hfd, flushedBytes, hro]
  · simp only [doCycle]
    rw [if_neg hw]
    exact ⟨by simp [flushedBytes], rfl, hro⟩

/-- Extending a loss-free run invariant by one event whose step preserves
the byte accounting, the descriptor and the cleared reopen flag. -/
lemma run_lossFree_cons (e : Ev) (es : List Ev) (s : FileState)
    (h1 : flushedBytes (step s e).2 ++ (step s e).1.frontBuffer
        = s.frontBuffer ++ producerBytes [e])
    (h2 : (step s e).1.descriptor = s.descriptor)
    (h3 : (step s e).1.reopenPending = false)
    (ihs : flushedBytes (run (step s e).1 es).2 ++ (run (step s e).1 es).1.frontBuffer
        = (step s e).1.frontBuffer ++ producerBytes es ∧
      (run (step s e).1 es).1.descriptor = (step s e).1.descriptor ∧
      (run (step s e).1 es).1.reopenPending = false) :
    flushedBytes (run s (e :: es)).2 ++ (run s (e :: es)).1.frontBuffer
        = s.frontBuffer ++ producerBytes (e :: es) ∧
    (run s (e :: es)).1.descriptor = s.descriptor ∧
    (run s (e :: es)).1.reopenPending = false := by
  obtain ⟨ih1, ih2, ih3⟩ := ihs
  have hsplit : producerBytes (e :: es) = producerBytes [e] ++ producerBytes es := by
    cases e <;> simp [producerBytes]
  refine ⟨?_, ?_, ?_⟩
  · simp only [run_cons]
    rw [flushedBytes_append, List.append_assoc, ih1, hsplit,
      show flushedBytes (step s e).2
            ++ ((step s e).1.frontBuffer ++ producerBytes es)
          = (flushedBytes (step s e).2 ++ (step s e).1.frontBuffer) ++ producerBytes es
        from (List.append_assoc _ _ _).symm,
      h1, List.append_assoc]
  · simp only [run_cons]
    rw [ih2, h2]
  · simp only [run_cons]
    rw [ih3]

/-- In a loss-free run starting with no pending reopen and a valid
descriptor, the bytes already flushed followed by the bytes still buffered
are exactly the bytes buffered at the start followed by the bytes produced,
and the descriptor and the reopen flag are untouched. -/
lemma run_lossFree (evs : List Ev) (s : FileState)
    (hfree : ∀ e ∈ evs, lossFree e = true)
    (hdesc : s.descriptor.isSome = true)
    (hro : s.reopenPending = false) :
    flushedBytes (run s evs).2 ++ (run s evs).1.frontBuffer
        = s.frontBuffer ++ producerBytes evs ∧
    (run s evs).1.descriptor = s.descriptor ∧
    (run s evs).1.reopenPending = false := by
  induction evs generalizing s with
  | nil => simp [run, producerBytes, flushedBytes, hro]
  | cons e es ih =>
    have hfe : lossFree e = true := hfree e (List.mem_cons_self e es)
    have hfes : ∀ x ∈ es, lossFree x = true := fun x hx => hfree x (List.mem_cons_of_mem e hx)
    cases e with
    | write b =>
      have h1 : flushedBytes (step s (Ev.write b)).2 ++ (step s (Ev.write b)).1.frontBuffer
          = s.frontBuffer ++ producerBytes [Ev.write b] := by
        simp [step, doWrite, flushedBytes, producerBytes]
      have h2 : (step s (Ev.write b)).1.descriptor = s.descriptor := by
        simp [step, doWrite]
      have h3 : (step s (Ev.write b)).1.reopenPending = false := by
        simp [step, doWrite, hro]
      exact run_lossFree_cons _ _ _ h1 h2 h3 (ih _ hfes (by rw [h2]; exact hdesc) h3)
    | flushRequest =>
      have h1 : flushedBytes (step s Ev.flushRequest).2
            ++ (step s Ev.flushRequest).1.frontBuffer
          = s.frontBuffer ++ producerBytes [Ev.flushRequest] := by
        simp [step, flushedBytes, producerBytes]
      have h2 : (step s Ev.flushRequest).1.descriptor = s.descriptor := by
        simp [step]
      have h3 : (step s Ev.flushRequest).1.reopenPending = false := by
        simp [step, hro]
      exact run_lossFree_cons _ _ _ h1 h2 h3 (ih _ hfes (by rw [h2]; exact hdesc) h3)
    | timerFire =>
      have h1 : flushedBytes (step s Ev.timerFire).2 ++ (step s Ev.timerFire).1.frontBuffer
          = s.frontBuffer ++ producerBytes [Ev.timerFire] := by
        simp [step, flushedBytes, producerBytes]
      have h2 : (step s Ev.timerFire).1.descriptor = s.descriptor := by
        simp [step]
      have h3 : (step s Ev.timerFire).1.reopenPending = false := by
        simp [step, hro]
      exact run_lossFree_cons _ _ _ h1 h2 h3 (ih _ hfes (by rw [h2]; exact hdesc) h3)
    | reopen => simp [lossFree] at hfe
    | destroy => simp [lossFree] at hfe
    | cycle r ok =>
      have hok : ok = true := by simpa [lossFree] using hfe
      subst hok
      obtain ⟨g1, g2, g3⟩ := doCycle_lossFree s r hdesc hro
      have h1 : flushedBytes (step s (Ev.cycle r true)).2
            ++ (step s (Ev.cycle r true)).1.frontBuffer
          = s.frontBuffer ++ producerBytes [Ev.cycle r true] := by
        simpa [step, producerBytes] using g1
      have h2 : (step s (Ev.cycle r true)).1.descriptor = s.descriptor := by
        simpa [step] using g2
      have h3 : (step s (Ev.cycle r true)).1.reopenPending = false := by
        simpa [step] using g3
      exact run_lossFree_cons _ _ _ h1 h2 h3 (ih _ hfes (by rw [h2]; exact hdesc) h3)

/-- C2: in a loss-free run from a freshly constructed file that ends with
the front buffer drained, the concatenation of the payloads of the
successful write syscalls equals the concatenation of the producer write
payloads, call by call and byte for byte; in particular the producer
concatenation is a prefix of the flushed concatenation, and each single
write is contiguous and in order inside it. -/
theorem claim_C2_producer_bytes_prefix (intv : Nat) (fd0 : Int) (evs : List Ev)
    (hfree : ∀ e ∈ evs, lossFree e = true)
    (hdrained : (run (initState intv fd0) evs).1.frontBuffer = []) :
    flushedBytes (run (initState intv fd0) evs).2 = producerBytes evs ∧
    producerBytes evs <+: flushedBytes (run (initState intv fd0) evs).2 := by
  obtain ⟨h1, -, -⟩ := run_lossFree evs (initState intv fd0) hfree rfl rfl
  rw [hdrained, List.append_nil] at h1
  have h2 : flushedBytes (run (initState intv fd0) evs).2 = producerBytes evs := by
    simpa [initState] using h1
  refine ⟨h2, ?_⟩
  rw [h2]

/-- The flushToLogFilePeriodically style run used as the C2 witness: two
writes, each drained by a timer-triggered cycle. -/
def c2Evs : List Ev :=
  [.write [116, 101, 115, 116], .timerFire, .cycle 0 true,
   .write [116, 101, 115, 116, 50], .timerFire, .cycle 0 true]

/-- Witness for C2 at the two-write periodic-flush run. -/
theorem claim_C2_producer_bytes_prefix_witness :
    (∀ e ∈ c2Evs, lossFree e = true) ∧
    (run (initState 40 5) c2Evs).1.frontBuffer = [] ∧
    (flushedBytes (run (initState 40 5) c2Evs).2 = producerBytes c2Evs ∧
     producerBytes c2Evs <+: flushedBytes (run (initState 40 5) c2Evs).2) :=
  ⟨by decide, by decide,
   claim_C2_producer_bytes_prefix 40 5 c2Evs (by decide) (by decide)⟩

end AsyncFile

namespace AsyncFile

/-- Scan of a syscall trace that is true when no write syscall is issued on
a descriptor that an earlier close of the trace (or of the accumulated
closed set) has closed. -/
def noWriteAfterClosed (closed : List Int) : List Sys → Bool
  | [] => true
  | Sys.openCall _ :: tr => noWriteAfterClosed closed tr
  | Sys.writeCall fd _ _ :: tr => decide (fd ∉ closed) && noWriteAfterClosed closed tr
  | Sys.closeCall fd :: tr => noWriteAfterClosed (fd :: closed) tr
  | Sys.enableTimer _ :: tr => noWriteAfterClosed closed tr

/-- The closed set accumulated after scanning a trace. -/
def closedAfter (closed : List Int) : List Sys → List Int
  | [] => closed
  | Sys.openCall _ :: tr => closedAfter closed tr
  | Sys.writeCall _ _ _ :: tr => closedAfter closed tr
  | Sys.closeCall fd :: tr => closedAfter (fd :: closed) tr
  | Sys.enableTimer _ :: tr => closedAfter closed tr

lemma closedAfter_append (closed : List Int) (a b : List Sys) :
    closedAfter closed (a ++ b) = closedAfter (closedAfter closed a) b := by
  induction a generalizing closed with
  | nil => rfl
  | cons o tr ih => cases o <;> simp [closedAfter, ih]

lemma noWriteAfterClosed_append (closed : List Int) (a b : List Sys) :
    noWriteAfterClosed closed (a ++ b)
      = (noWriteAfterClosed closed a && noWriteAfterClosed (closedAfter closed a) b) := by
  induction a generalizing closed with
  | nil => simp [noWriteAfterClosed, closedAfter]
  | cons o tr ih => cases o <;> simp [noWriteAfterClosed, closedAfter, ih, Bool.and_assoc]

/-- The open results carried by the cycle events of an event list. -/
def cycleRets : List Ev → List Int
  | [] => []
  | Ev.cycle r _ :: es => r :: cycleRets es
  | Ev.write _ :: es => cycleRets es
  | Ev.flushRequest :: es => cycleRets es
  | Ev.reopen :: es => cycleRets es
  | Ev.timerFire :: es => cycleRets es
  | Ev.destroy :: es => cycleRets es

lemma drainStep_nwac (s : FileState) (ok : Bool) (closed : List Int)
    (hdesc : ∀ fd, s.descriptor = some fd → fd ∉ closed) :
    noWriteAfterClosed closed (drainStep s ok).2 = true ∧
    closedAfter closed (drainStep s ok).2 = closed ∧
    (drainStep s ok).1.descriptor = s.descriptor := by
  rcases hsd : s.descriptor with _ | fd
  · by_cases hfb : s.frontBuffer = [] <;> cases ok <;>
      simp [drainStep, hsd, hfb, noWriteAfterClosed, closedAfter]
  · have hfdc : fd ∉ closed := hdesc fd hsd
    by_cases hfb : s.frontBuffer = [] <;> cases ok <;>
      simp [drainStep, hsd, hfb, noWriteAfterClosed, closedAfter, hfdc]

/-- One flusher cycle never writes on a closed descriptor, and it maintains
the invariants needed to propagate that fact: the resulting descriptor is
not in the resulting closed set; integers outside the closed set that are
not the current descriptor stay outside it; and the resulting descriptor
can only be the old one or the open result. -/
lemma doCycle_nwac (s : FileState) (r : Int) (ok : Bool) (closed : List Int)
    (hdesc : ∀ fd, s.descriptor = some fd → fd ∉ closed)
    (hr : 0 ≤ r → r ∉ closed ∧ s.descriptor ≠ some r) :
    noWriteAfterClosed closed (doCycle s r ok).2 = true ∧
    (∀ fd, (doCycle s r ok).1.descriptor = some fd →
      fd ∉ closedAfter closed (doCycle s r ok).2) ∧
    (∀ x : Int, x ∉ closed → s.descriptor ≠ some x →
      x ∉ closedAfter closed (doCycle s r ok).2) ∧
    (∀ x : Int, s.descriptor ≠ some x → x ≠ r →
      (doCycle s r ok).1.descriptor ≠ some x) := by
  by_cases hw : (s.flushRequested || s.reopenPending || s.shuttingDown) = true
  · simp only [doCycle]
    rw [if_pos hw]
    cases hrp : s.reopenPending with
    | false =>
      have hre : reopenStep s r = (s, []) := by simp [reopenStep, hrp]
      rw [hre]
      obtain ⟨d1, d2, d3⟩ := drainStep_nwac s ok closed hdesc
      refine ⟨by simpa using d1, ?_, ?_, ?_⟩
      · intro fd h
        rw [d3] at h
        simpa [d2] using hdesc fd h
      · intro x hx _
        simpa [d2] using hx
      · intro x hx _
        rw [d3]
        exact hx
    | true =>
      rcases hsd : s.descriptor with _ | fdold
      · have hobs : (reopenStep s r).2 = [Sys.openCall r] := by
          simp [reopenStep, hrp, hsd]
        have hS1d : (reopenStep s r).1.descriptor = if r < 0 then none else some r := by
          simp [reopenStep, hrp]
        have hS1desc : ∀ fd, (reopenStep s r).1.descriptor = some fd → fd ∉ closed := by
          intro fd h
          rw [hS1d] at h
          by_cases hneg : r < 0
          · rw [if_pos hneg] at h
            exact absurd h (by simp)
          · rw [if_neg hneg] at h
            obtain ⟨hrc, -⟩ := hr (not_lt.mp hneg)
            injection h with h
            rw [← h]
            exact hrc
        obtain ⟨d1, d2, d3⟩ := drainStep_nwac (reopenStep s r).1 ok closed hS1desc
        refine ⟨?_, ?_, ?_, ?_⟩
        · show noWriteAfterClosed closed
            ((reopenStep s r).2 ++ (drainStep (reopenStep s r).1 ok).2) = true
          rw [noWriteAfterClosed_append, hobs]
          simpa [noWriteAfterClosed, closedAfter] using d1
        · intro fd h
          have h2 : (reopenStep s r).1.descriptor = some fd := by
            rw [← d3]
            exact h
          show fd ∉ closedAfter closed
            ((reopenStep s r).2 ++ (drainStep (reopenStep s r).1 ok).2)
          rw [closedAfter_append, hobs]
          simpa [closedAfter, d2] using hS1desc fd h2
        · intro x hx _
          show x ∉ closedAfter closed
            ((reopenStep s r).2 ++ (drainStep (reopenStep s r).1 ok).2)
          rw [closedAfter_append, hobs]
          simpa [closedAfter, d2] using hx
        · intro x _ hxr
          show (drainStep (reopenStep s r).1 ok).1.descriptor ≠ some x
          rw [d3, hS1d]
          by_cases hneg : r < 0
          · rw [if_pos hneg]
            simp
          · rw [if_neg hneg]
            simp
            intro h
            exact hxr h.symm
      · have hfdoldc : fdold ∉ closed := hdesc fdold hsd
        have hobs : (reopenStep s r).2 = [Sys.closeCall fdold, Sys.openCall r] := by
          simp [reopenStep, hrp, hsd]
        have hS1d : (reopenStep s r).1.descriptor = if r < 0 then none else some r := by
          simp [reopenStep, hrp]
        have hS1desc : ∀ fd, (reopenStep s r).1.descriptor = some fd →
            fd ∉ (fdold :: closed) := by
          intro fd h
          rw [hS1d] at h
          by_cases hneg : r < 0
          · rw [if_pos hneg] at h
            exact absurd h (by simp)
          · rw [if_neg hneg] at h
            obtain ⟨hrc, hrd⟩ := hr (not_lt.mp hneg)
            rw [hsd] at hrd
            injection h with h
            rw [← h]
            intro hm
            rcases List.mem_cons.mp hm with he | hm2
            · exact hrd (by rw [he])
            · exact hrc hm2
        obtain ⟨d1, d2, d3⟩ := drainStep_nwac (reopenStep s r).1 ok (fdold :: closed) hS1desc
        refine ⟨?_, ?_, ?_, ?_⟩
        · show noWriteAfterClosed closed
            ((reopenStep s r).2 ++ (drainStep (reopenStep s r).1 ok).2) = true
          rw [noWriteAfterClosed_append, hobs]
          simpa [noWriteAfterClosed, closedAfter] using d1
        · intro fd h
          have h2 : (reopenStep s r).1.descriptor = some fd := by
            rw [← d3]
            exact h
          show fd ∉ closedAfter closed
            ((reopenStep s r).2 ++ (drainStep (reopenStep s r).1 ok).2)
          rw [closedAfter_append, hobs]
          simpa [closedAfter, d2] using hS1desc fd h2
        · intro x hx hxd
          show x ∉ closedAfter closed
            ((reopenStep s r).2 ++ (drainStep (reopenStep s r).1 ok).2)
          rw [closedAfter_append, hobs]
          have : x ∉ (fdold :: closed) := by
            intro hm
            rcases List.mem_cons.mp hm with he | hm2
            · exact hxd (by rw [he])
            · exact hx hm2
          simpa [closedAfter, d2] using this
        · intro x _ hxr
          show (drainStep (reopenStep s r).1 ok).1.descriptor ≠ some x
          rw [d3, hS1d]
          by_cases hneg : r < 0
          · rw [if_pos hneg]
            simp
          · rw [if_neg hneg]
            simp
            intro h
            exact hxr h.symm
  · simp only [doCycle]
    rw [if_neg hw]
    exact ⟨rfl, hdesc, fun x hx _ => hx, fun x hx _ => hx⟩

end AsyncFile

namespace AsyncFile

/-- In any execution whose environment never hands out an open result that
collides with the initial descriptor or an earlier open result, no write
syscall is issued on a descriptor after a close of that descriptor. -/
lemma nwac_run (evs : List Ev) (s : FileState) (closed : List Int)
    (hdesc : ∀ fd, s.descriptor = some fd → fd ∉ closed)
    (hret : ∀ r ∈ cycleRets evs, 0 ≤ r → r ∉ closed ∧ s.descriptor ≠ some r)
    (hpair : (cycleRets evs).Pairwise (fun a b => 0 ≤ a → 0 ≤ b → a ≠ b)) :
    noWriteAfterClosed closed (run s evs).2 = true := by
  induction evs generalizing s closed with
  | nil => rfl
  | cons e es ih =>
    simp only [run_cons]
    rw [noWriteAfterClosed_append, Bool.and_eq_true]
    cases e with
    | write b =>
      exact ⟨rfl, ih (doWrite s b) closed (fun fd h => hdesc fd h)
        (fun r hrm h0 => hret r hrm h0) hpair⟩
    | flushRequest =>
      exact ⟨rfl, ih _ closed (fun fd h => hdesc fd h)
        (fun r hrm h0 => hret r hrm h0) hpair⟩
    | reopen =>
      exact ⟨rfl, ih _ closed (fun fd h => hdesc fd h)
        (fun r hrm h0 => hret r hrm h0) hpair⟩
    | timerFire =>
      exact ⟨rfl, ih _ closed (fun fd h => hdesc fd h)
        (fun r hrm h0 => hret r hrm h0) hpair⟩
    | destroy =>
      rcases hsd : s.descriptor with _ | fd
      · simp only [step, doDestroy, hsd]
        refine ⟨rfl, ih _ closed ?_ ?_ hpair⟩
        · intro fd' h
          exact hdesc fd' (by rw [hsd]; exact h)
        · intro r hrm h0
          obtain ⟨hc, -⟩ := hret r hrm h0
          exact ⟨hc, by simp⟩
      · simp only [step, doDestroy, hsd]
        refine ⟨rfl, ih _ (fd :: closed) ?_ ?_ hpair⟩
        · intro fd' h
          exact absurd h (by simp)
        · intro r hrm h0
          obtain ⟨hc, hd⟩ := hret r hrm h0
          rw [hsd] at hd
          refine ⟨?_, by simp⟩
          intro hm
          rcases List.mem_cons.mp hm with he | hm2
          · exact hd (by rw [he])
          · exact hc hm2
    | cycle r ok =>
      have hret_head : 0 ≤ r → r ∉ closed ∧ s.descriptor ≠ some r :=
        hret r (List.mem_cons_self _ _)
      obtain ⟨c1, c2, c3, c4⟩ := doCycle_nwac s r ok closed hdesc hret_head
      refine ⟨c1, ih _ _ c2 ?_ (List.pairwise_cons.mp hpair).2⟩
      intro r' hrm h0
      obtain ⟨hc, hd⟩ := hret r' (List.mem_cons_of_mem _ hrm) h0
      have hpairhead : 0 ≤ r → 0 ≤ r' → r ≠ r' :=
        (List.pairwise_cons.mp hpair).1 r' hrm
      refine ⟨c3 r' hc hd, c4 r' hd ?_⟩
      intro he
      exact hpairhead (he ▸ h0) h0 he.symm

/-- The reopenFile test scenario: a write drained by a timer-triggered
cycle on the initial descriptor, then reopen, another write, and another
timer-triggered cycle, followed by teardown. -/
def reopenScenario : List Ev :=
  [.write [1], .timerFire, .cycle 0 true,
   .reopen, .write [2], .timerFire, .cycle 10 true,
   .destroy]

/-- C1: in every execution whose open results are fresh, distinct from the
initial descriptor and from one another, no write syscall is ever issued on
a file descriptor after a close of that same descriptor has been observed;
and in the reopenFile scenario starting from descriptor 5 with the reopen
cycle opening 10, the observed OS syscall sequence is exactly write on 5,
close of 5, open returning 10, write on 10, and close of 10 at teardown, in
that order. -/
theorem claim_C1_no_write_after_close :
    (∀ (intv : Nat) (fd0 : Int) (evs : List Ev),
      (∀ r ∈ cycleRets evs, 0 ≤ r → r ≠ fd0) →
      (cycleRets evs).Pairwise (fun a b => 0 ≤ a → 0 ≤ b → a ≠ b) →
      noWriteAfterClosed [] (run (initState intv fd0) evs).2 = true) ∧
    osCalls (run (initState 40 5) reopenScenario).2 =
      [Sys.writeCall 5 [1] true, Sys.closeCall 5, Sys.openCall 10,
       Sys.writeCall 10 [2] true, Sys.closeCall 10] := by
  constructor
  · intro intv fd0 evs h1 h2
    apply nwac_run evs (initState intv fd0) []
    · intro fd _
      simp
    · intro r hrm h0
      refine ⟨by simp, ?_⟩
      simp only [initState, ne_eq, Option.some.injEq]
      exact fun h => h1 r hrm h0 h.symm
    · exact h2
  · decide

/-- Witness for C1 at the reopenFile scenario. -/
theorem claim_C1_no_write_after_close_witness :
    (∀ r ∈ cycleRets reopenScenario, 0 ≤ r → r ≠ 5) ∧
    (cycleRets reopenScenario).Pairwise (fun a b => 0 ≤ a → 0 ≤ b → a ≠ b) ∧
    noWriteAfterClosed [] (run (initState 40 5) reopenScenario).2 = true :=
  ⟨by decide, by simp [reopenScenario, cycleRets, List.pairwise_cons],
   claim_C1_no_write_after_close.1 40 5 reopenScenario (by decide)
     (by simp [reopenScenario, cycleRets, List.pairwise_cons])⟩

end AsyncFile
